import Mathlib

/-!
Verification development for the MediaManager Acquisition & Reconciliation
Engine. Frontend definitions are embedded from the Svelte/TypeScript sources
under `web/src`; backend components (title parser, release ranker, acquisition
orchestrator, import reconciler) are not present in the source tree, so they
are modelled from the specification text, as marked in their doc comments.
-/

namespace MediaManager

/-- Quality tier vocabulary, best to worst: UHD, FullHD, HD, SD, Unknown
(spec section 6, "Quality vocabulary"). -/
inductive Quality
  | uhd
  | fullHD
  | hd
  | sd
  | unknown
deriving DecidableEq, Repr, Fintype

/-- Position of a quality tier in the spec's best-to-worst enumeration
`UHD, FullHD, HD, SD, Unknown` (0 = best). -/
def Quality.specRank : Quality → Nat
  | .uhd => 0
  | .fullHD => 1
  | .hd => 2
  | .sd => 3
  | .unknown => 4

/-- Numeric quality code used at the web interface: the keys of `qualityMap`
in `web/src/lib/api/index.ts` (1 = UHD down to 5 = unknown). -/
def Quality.code : Quality → Int
  | .uhd => 1
  | .fullHD => 2
  | .hd => 3
  | .sd => 4
  | .unknown => 5

/-- Display label for each quality code, the values of `qualityMap` in
`web/src/lib/api/index.ts`. -/
def Quality.label : Quality → String
  | .uhd => "4K/UHD"
  | .fullHD => "1080p/FullHD"
  | .hd => "720p/HD"
  | .sd => "480p/SD"
  | .unknown => "unknown"

namespace Web

/-- `qualityMap` from `web/src/lib/api/index.ts`: the JS object
`{1: '4K/UHD', 2: '1080p/FullHD', 3: '720p/HD', 4: '480p/SD', 5: 'unknown'}`,
embedded as a partial map from integer codes to labels (absent keys give
`none`, as JS indexing gives `undefined`). -/
def qualityMap (k : Int) : Option String :=
  if k = 1 then some "4K/UHD"
  else if k = 2 then some "1080p/FullHD"
  else if k = 3 then some "720p/HD"
  else if k = 4 then some "480p/SD"
  else if k = 5 then some "unknown"
  else none

/-- `torrentStatusMap` from `web/src/lib/api/index.ts`: the JS object
`{1: 'finished', 2: 'downloading', 3: 'error', 4: 'unknown'}`. -/
def torrentStatusMap (k : Int) : Option String :=
  if k = 1 then some "finished"
  else if k = 2 then some "downloading"
  else if k = 3 then some "error"
  else if k = 4 then some "unknown"
  else none

/-- `getTorrentQualityString` from `web/src/lib/api/index.ts`:
`qualityMap[value] || 'unknown'`. Every value stored in the map is a
non-empty (hence truthy) string, so the JS `||` fallback fires exactly when
the lookup is `undefined`, i.e. it is `Option.getD`. -/
def getTorrentQualityString (value : Int) : String :=
  (qualityMap value).getD "unknown"

/-- `getTorrentStatusString` from `web/src/lib/api/index.ts`:
`torrentStatusMap[value] || 'unknown'`; as with the quality map, every stored
value is truthy, so `||` is `Option.getD`. -/
def getTorrentStatusString (value : Int) : String :=
  (torrentStatusMap value).getD "unknown"

/-- Outcome category of a frontend download-selection handler: which message
the handler emits for a given HTTP response status. -/
inductive DownloadMsg
  | duplicateSuffix
  | genericFailure
  | success
deriving DecidableEq, Repr

/-- `Response.ok` of the Fetch API: status in the inclusive range 200-299. -/
def respOk (status : Int) : Bool :=
  decide (200 ≤ status ∧ status ≤ 299)

/-- `downloadTorrent` in
`web/src/lib/components/download-dialogs/download-movie-dialog.svelte`
(first script block): `409` gives the duplicate-suffix message, any other
non-ok status the generic failure message, otherwise success. -/
def downloadTorrentMovie (status : Int) : DownloadMsg :=
  if status = 409 then .duplicateSuffix
  else if !(respOk status) then .genericFailure
  else .success

/-- `downloadTorrent` in the custom-show-download script block of
`download-movie-dialog.svelte` (POST `/api/v1/tv/torrents`). -/
def downloadTorrentShowCustom (status : Int) : DownloadMsg :=
  if status = 409 then .duplicateSuffix
  else if !(respOk status) then .genericFailure
  else .success

/-- `downloadTorrent` in the debrid-aware movie script block of
`download-movie-dialog.svelte`. -/
def downloadTorrentMovieDebrid (status : Int) : DownloadMsg :=
  if status = 409 then .duplicateSuffix
  else if !(respOk status) then .genericFailure
  else .success

/-- `downloadTorrent` in
`web/src/lib/components/download-dialogs/download-season-dialog.svelte`. -/
def downloadTorrentSeason (status : Int) : DownloadMsg :=
  if status = 409 then .duplicateSuffix
  else if !(respOk status) then .genericFailure
  else .success

/-- `downloadTorrent` in
`web/src/lib/components/download-dialogs/download-selected-seasons-dialog.svelte`. -/
def downloadTorrentSelectedSeasons (status : Int) : DownloadMsg :=
  if status = 409 then .duplicateSuffix
  else if !(respOk status) then .genericFailure
  else .success

/-- `downloadTorrent` in the legacy
`web/src/lib/components/download-season-dialog.svelte`. -/
def downloadTorrentSeasonLegacy (status : Int) : DownloadMsg :=
  if status = 409 then .duplicateSuffix
  else if !(respOk status) then .genericFailure
  else .success

/-- `downloadTorrent` in the album download dialog (music): `409` gives the
duplicate-suffix message, other non-ok statuses the generic one. -/
def downloadTorrentAlbum (status : Int) : DownloadMsg :=
  if status = 409 then .duplicateSuffix
  else if !(respOk status) then .genericFailure
  else .success

/-- `downloadTorrent` in
`web/src/lib/components/download-dialogs/download-selected-episodes-dialog.svelte`:
this handler has no `409` branch at all — `if (!response.ok) toast.error("Download failed.") else toast.success(...)`. -/
def downloadTorrentSelectedEpisodes (status : Int) : DownloadMsg :=
  if !(respOk status) then .genericFailure
  else .success

/-- Retry-button render guard in the torrent table of
`web/src/lib/components/torrents/edit-torrent-dialog.svelte`:
`{#if 'finished' !== getTorrentStatusString(torrent.status)}`. -/
def showRetryButton (status : Int) : Bool :=
  !("finished" == getTorrentStatusString status)

end Web

namespace Parser

/-! ## Title Parser

Modelled from the spec: the backend title-parser module (`media_manager`
package) is not present under the source tree; only its documentation and
frontend mirrors (e.g. `isEpisodeRelease` in
`download-selected-seasons-dialog.svelte`) are. The definitions below follow
spec section 4.1: an ordered list of patterns applied to a case-insensitive
copy of the title, first match wins, with a separate quality pass. The
volume-marker pattern for serialized non-TV media is omitted: it is last in
the precedence chain and no claim exercises it. -/

/-- Numeric value of a single decimal digit character. -/
def val1 (c : Char) : Nat := c.toNat - 48

/-- Numeric value of a two-digit sequence. -/
def val2 (c1 c2 : Char) : Nat := 10 * val1 c1 + val1 c2

/-- All ways `\d{1,2}` can match at the head of the input, longest first
(regex greediness with backtracking), each with the remaining input. -/
def readNum12 : List Char → List (Nat × List Char)
  | [] => []
  | [c1] => if c1.isDigit then [(val1 c1, [])] else []
  | c1 :: c2 :: rest =>
    if c1.isDigit then
      if c2.isDigit then [(val2 c1 c2, rest), (val1 c1, c2 :: rest)]
      else [(val1 c1, c2 :: rest)]
    else []

/-- `\d+` at the head of the input: all leading digits, at least one. -/
def readNumPlus (l : List Char) : Option (Nat × List Char) :=
  let ds := l.takeWhile Char.isDigit
  if ds.isEmpty then none
  else some (ds.foldl (fun a c => 10 * a + val1 c) 0, l.dropWhile Char.isDigit)

/-- Word character for `\b` boundaries (letters and digits). -/
def isWordChar (c : Char) : Bool := c.isAlphanum

/-- A word boundary holds before the current position given the previous
character (start of string, or a non-word character). -/
def boundaryBefore : Option Char → Bool
  | none => true
  | some c => !(isWordChar c)

/-- A word boundary holds at the start of the remaining input (end of string,
or a non-word character). -/
def boundaryAfter : List Char → Bool
  | [] => true
  | c :: _ => !(isWordChar c)

/-- Drops a literal character sequence from the head of the input. -/
def dropLit : List Char → List Char → Option (List Char)
  | [], l => some l
  | _ :: _, [] => none
  | p :: ps, c :: cs => if c = p then dropLit ps cs else none

/-- `S\d{1,2}E\d{1,2}` anchored at the head of the (lowercased) input,
returning (season, episode). -/
def matchSxxExxAt (l : List Char) : Option (Nat × Nat) :=
  match l with
  | 's' :: rest =>
    (readNum12 rest).findSome? fun sr =>
      match sr.2 with
      | 'e' :: rest2 => (readNum12 rest2).head?.map fun er => (sr.1, er.1)
      | _ => none
  | _ => none

/-- `\d{1,2}x\d{1,2}` anchored at the head of the input. -/
def matchNxNAt (l : List Char) : Option (Nat × Nat) :=
  (readNum12 l).findSome? fun sr =>
    match sr.2 with
    | 'x' :: rest2 => (readNum12 rest2).head?.map fun er => (sr.1, er.1)
    | _ => none

/-- `\bE\d{1,2}\b` anchored at the head of the input, with the previous
character supplied for the leading word boundary. -/
def matchBareEAt (prev : Option Char) (l : List Char) : Option Nat :=
  if boundaryBefore prev then
    match l with
    | 'e' :: rest =>
      (readNum12 rest).findSome? fun er =>
        if boundaryAfter er.2 then some er.1 else none
    | _ => none
  else none

/-- `E\d{1,2}-E?\d{1,2}` anchored at the head of the input, returning the
inclusive range bounds. -/
def matchERangeAt (l : List Char) : Option (Nat × Nat) :=
  match l with
  | 'e' :: rest =>
    (readNum12 rest).findSome? fun fr =>
      match fr.2 with
      | '-' :: rest2 =>
        let rest3 := match rest2 with
          | 'e' :: r => r
          | _ => rest2
        (readNum12 rest3).head?.map fun er => (fr.1, er.1)
      | _ => none
  | _ => none

/-- `season \d+ episode \d+` anchored at the head of the input. -/
def matchSeasonEpisodeAt (l : List Char) : Option (Nat × Nat) := do
  let r1 ← dropLit "season ".toList l
  let (s, r2) ← readNumPlus r1
  let r3 ← dropLit " episode ".toList r2
  let (e, _) ← readNumPlus r3
  pure (s, e)

/-- Bare `S\d{1,2}` (season-pack marker) anchored at the head of the input,
with word boundaries on both sides so that e.g. `season` itself or an infix
of a longer token does not match. -/
def matchBareSAt (prev : Option Char) (l : List Char) : Option Nat :=
  if boundaryBefore prev then
    match l with
    | 's' :: rest =>
      (readNum12 rest).findSome? fun sr =>
        if boundaryAfter sr.2 then some sr.1 else none
    | _ => none
  else none

/-- `season \d+` (season-pack marker) anchored at the head of the input. -/
def matchSeasonWordAt (l : List Char) : Option Nat := do
  let r1 ← dropLit "season ".toList l
  let (s, _) ← readNumPlus r1
  pure s

/-- Leftmost match of an anchored matcher: regex search semantics, trying
every start position left to right. -/
def scanFirst {β : Type} (m : List Char → Option β) : List Char → Option β
  | [] => m []
  | c :: rest =>
    match m (c :: rest) with
    | some r => some r
    | none => scanFirst m rest

/-- Leftmost match of a boundary-aware anchored matcher, threading the
previous character. -/
def scanFirstB {β : Type} (m : Option Char → List Char → Option β) :
    Option Char → List Char → Option β
  | prev, [] => m prev []
  | prev, c :: rest =>
    match m prev (c :: rest) with
    | some r => some r
    | none => scanFirstB m (some c) rest

/-- The inclusive integer range `[lo, hi]` as a list. -/
def rangeIncl (lo hi : Nat) : List Nat := List.range' lo (hi + 1 - lo)

/-- The ordered season/episode pattern chain of spec section 4.1: the first
pattern that matches any span wins. `S\d{1,2}E\d{1,2}` →
`\d{1,2}x\d{1,2}` → `\bE\d{1,2}\b` → `E\d{1,2}-E?\d{1,2}` →
`season \d+ episode \d+`. Returns `(seasons, episodes)`. -/
def episodeMatch (l : List Char) : Option (List Nat × List Nat) :=
  match scanFirst matchSxxExxAt l with
  | some (s, e) => some ([s], [e])
  | none =>
  match scanFirst matchNxNAt l with
  | some (s, e) => some ([s], [e])
  | none =>
  match scanFirstB matchBareEAt none l with
  | some e => some ([], [e])
  | none =>
  match scanFirst matchERangeAt l with
  | some (e1, e2) => some ([], rangeIncl e1 e2)
  | none =>
  match scanFirst matchSeasonEpisodeAt l with
  | some (s, e) => some ([s], [e])
  | none => none

/-- Season-pack detection (spec section 4.1): a bare `S\d{1,2}` or a
`season \d+` token with no episode token implies the whole season. -/
def seasonPackMatch (l : List Char) : Option Nat :=
  match scanFirstB matchBareSAt none l with
  | some s => some s
  | none => scanFirst matchSeasonWordAt l

/-- Substring test over character lists. -/
def containsSeq (pat : List Char) : List Char → Bool
  | [] => decide (pat = [])
  | c :: rest => pat.isPrefixOf (c :: rest) || containsSeq pat rest

/-- Quality extraction (spec section 4.1): a separate, independent pass over
resolution tokens — 2160p/4K → UHD, 1080p → FullHD, 720p → HD,
480p → SD — defaulting to Unknown. -/
def qualityOf (l : List Char) : Quality :=
  if containsSeq "2160p".toList l || containsSeq "4k".toList l then .uhd
  else if containsSeq "1080p".toList l then .fullHD
  else if containsSeq "720p".toList l then .hd
  else if containsSeq "480p".toList l then .sd
  else .unknown

/-- Result of `parse`: season numbers, episode numbers and quality tier. -/
structure ParseResult where
  seasons : List Nat
  episodes : List Nat
  quality : Quality
deriving DecidableEq, Repr

/-- Case-insensitive copy of a title, as a character list. -/
def lower (title : String) : List Char := title.toList.map Char.toLower

/-- `parse` (spec section 4.1): total function — ordered episode patterns
first, then season-pack detection, then the independent quality pass;
absence of a recognizable pattern yields empty seasons/episodes and
`Unknown` quality, never an error. -/
def parse (title : String) : ParseResult :=
  let l := lower title
  let q := qualityOf l
  match episodeMatch l with
  | some (ss, es) => ⟨ss, es, q⟩
  | none =>
    match seasonPackMatch l with
    | some s => ⟨[s], [], q⟩
    | none => ⟨[], [], q⟩

end Parser

namespace Ranker

/-! ## Release Ranker

Modelled from the spec: the backend ranker module is not present under the
source tree. Spec section 4.3: known-quality releases outside
`[minQuality, wantedQuality]` are excluded (not deprioritized); Unknown
quality is retained but ranked after all known-quality matches; among
retained releases better quality ranks first. The coverage/seeders/flags/
size/indexer/title tie-breaks among releases of equal quality are omitted:
no claim in question distinguishes releases of equal quality, and the sort
below is stable, so their relative order is input order. -/

/-- A candidate release from an indexer search (spec section 3). `score` is
computed, not stored, so it is not a field. -/
structure Release where
  title : String
  indexerName : String
  sizeBytes : Nat
  seeders : Option Nat
  ageSeconds : Option Nat
  flags : List String
  isUsenet : Bool
  seasons : List Nat
  episodes : List Nat
  quality : Quality
deriving DecidableEq, Repr

/-- The quality bounds of an `AcquisitionRequest` relevant to ranking. -/
structure RankRequest where
  minQuality : Quality
  wantedQuality : Quality
deriving DecidableEq, Repr

/-- Retention test of spec section 4.3 step 1: keep a release whose quality
is Unknown, or whose known quality lies inside `[minQuality, wantedQuality]`
(on codes: `wantedQuality.code ≤ q.code ≤ minQuality.code`, smaller code =
better quality). -/
def inWindow (req : RankRequest) (r : Release) : Bool :=
  decide (r.quality = .unknown ∨
    (req.wantedQuality.code ≤ r.quality.code ∧ r.quality.code ≤ req.minQuality.code))

/-- Ranking order on retained releases: better (smaller) quality code first;
Unknown has the greatest code, so it sorts after every known quality. -/
def qualityLe (a b : Release) : Prop := a.quality.code ≤ b.quality.code

instance : DecidableRel qualityLe := fun a b =>
  inferInstanceAs (Decidable (a.quality.code ≤ b.quality.code))

instance : IsTotal Release qualityLe := ⟨fun a b => le_total a.quality.code b.quality.code⟩

instance : IsTrans Release qualityLe := ⟨fun _ _ _ h1 h2 => le_trans h1 h2⟩

/-- `rank` (spec section 4.3): filter by the quality window, then order
retained releases best quality first with Unknown last (stable sort). -/
def rank (releases : List Release) (req : RankRequest) : List Release :=
  List.insertionSort qualityLe (releases.filter (inWindow req))

end Ranker

namespace Orch

/-! ## Acquisition Orchestrator

Modelled from the spec: the backend orchestrator module is not present under
the source tree. Spec section 4.4: persisted Torrent records, the commit
algorithm (validate, uniqueness check, external client call, persist with
status Downloading), retry, and the asynchronous status updates of
section 5. Concurrency is modelled by the serialization the spec demands:
the commit algorithm is atomic with respect to concurrent commits for the
same target and suffix, so two racing commits behave as one commit followed
by the other. -/

/-- Torrent status vocabulary (spec section 6). -/
inductive TStatus
  | downloading
  | finished
  | error
  | unknownStatus
deriving DecidableEq, Repr

/-- Target media unit of an acquisition: show+season, movie or album
(spec section 3, uniqueness invariant). -/
inductive Target
  | showSeason (showId seasonNumber : Nat)
  | movie (movieId : Nat)
  | album (albumId : Nat)
deriving DecidableEq, Repr

/-- Persisted Torrent record (spec section 3), restricted to the fields the
uniqueness invariant and lifecycle speak about. -/
structure TorrentRec where
  tid : Nat
  target : Target
  suffix : String
  quality : Quality
  status : TStatus
  imported : Bool
  deleted : Bool
deriving DecidableEq, Repr

/-- An `AcquisitionRequest` (spec section 3): target media unit, quality
bounds, optional file path suffix (default is the empty string). -/
structure AcquisitionRequest where
  target : Target
  minQuality : Quality
  wantedQuality : Quality
  suffix : String
deriving DecidableEq, Repr

/-- Outcome of the external download-client collaborator call
(spec section 6). -/
inductive ClientResp
  | accept
  | reject (msg : String)
deriving DecidableEq, Repr

/-- Result of a commit attempt (spec section 4.4 states). -/
inductive CommitResult
  | committed
  | malformedRequest
  | duplicateSuffixConflict
  | clientRejected (msg : String)
deriving DecidableEq, Repr

/-- A commit's observable outcome: its result, the resulting persisted
state, and how many download-client calls it made. -/
structure CommitOutcome where
  result : CommitResult
  state : List TorrentRec
  clientCalls : Nat
deriving DecidableEq, Repr

/-- A record that would collide with a new Torrent for `target`/`suffix`:
non-deleted, same target media unit, same file path suffix. -/
def sameActiveKey (target : Target) (suffix : String) (t : TorrentRec) : Prop :=
  t.deleted = false ∧ t.target = target ∧ t.suffix = suffix

instance (target : Target) (suffix : String) :
    DecidablePred (sameActiveKey target suffix) := fun t =>
  inferInstanceAs (Decidable (t.deleted = false ∧ t.target = target ∧ t.suffix = suffix))

/-- Uniqueness check of commit step 2: some existing non-deleted Torrent for
this target already holds this suffix. -/
def conflictExists (ts : List TorrentRec) (target : Target) (suffix : String) : Prop :=
  ∃ t ∈ ts, sameActiveKey target suffix t

instance (ts : List TorrentRec) (target : Target) (suffix : String) :
    Decidable (conflictExists ts target suffix) :=
  List.decidableBEx _ ts

/-- Commit step 1 validation: `minQuality` must be at least as permissive as
`wantedQuality` on the quality ordering, i.e. wanted is at least as good
(code no larger than `minQuality`'s). -/
def validRequest (req : AcquisitionRequest) : Prop :=
  req.wantedQuality.code ≤ req.minQuality.code

instance (req : AcquisitionRequest) : Decidable (validRequest req) :=
  inferInstanceAs (Decidable (_ ≤ _))

/-- The Torrent record persisted on client acceptance: `status = Downloading`,
not imported, not deleted, quality frozen from the originating release. -/
def newTorrent (fresh : Nat) (req : AcquisitionRequest) (q : Quality) : TorrentRec :=
  ⟨fresh, req.target, req.suffix, q, .downloading, false, false⟩

/-- The commit algorithm of spec section 4.4: (1) validation before any side
effect, (2) uniqueness check — on violation fail with
`DuplicateSuffixConflict`, no further action, (3) external client call — on
failure `ClientRejected` and no record, (4) only after acceptance persist the
record with status Downloading. `clientCalls` counts step-3 invocations. -/
def commit (ts : List TorrentRec) (req : AcquisitionRequest) (q : Quality)
    (fresh : Nat) (client : ClientResp) : CommitOutcome :=
  if ¬ validRequest req then ⟨.malformedRequest, ts, 0⟩
  else if conflictExists ts req.target req.suffix then ⟨.duplicateSuffixConflict, ts, 0⟩
  else
    match client with
    | .reject m => ⟨.clientRejected m, ts, 1⟩
    | .accept => ⟨.committed, newTorrent fresh req q :: ts, 1⟩

/-- One asynchronous status update from the download client applied to a
record (spec section 5): keyed by Torrent id, a safe no-op once the terminal
state `Finished` is reached. -/
def updateRecord (t : TorrentRec) (tid : Nat) (st : TStatus) : TorrentRec :=
  if t.tid = tid ∧ t.status ≠ .finished then {t with status := st} else t

/-- Administrator-triggered retry applied to a record (spec section 4.4):
acts only on an `Error` Torrent, re-invokes the client call only, resets
status to Downloading on success and leaves `Error` on failure. -/
def retryRecord (t : TorrentRec) (tid : Nat) (client : ClientResp) : TorrentRec :=
  if t.tid = tid ∧ t.status = .error then
    match client with
    | .accept => {t with status := .downloading}
    | .reject _ => t
  else t

/-- Asynchronous status update over the whole persisted state. -/
def applyStatusUpdate (ts : List TorrentRec) (tid : Nat) (st : TStatus) : List TorrentRec :=
  ts.map fun t => updateRecord t tid st

/-- Retry over the whole persisted state. -/
def retry (ts : List TorrentRec) (tid : Nat) (client : ClientResp) : List TorrentRec :=
  ts.map fun t => retryRecord t tid client

/-- Explicit user deletion (spec section 3: Torrents are never deleted except
by explicit user action); modelled as marking the record deleted. -/
def deleteTorrent (ts : List TorrentRec) (tid : Nat) : List TorrentRec :=
  ts.map fun t => if t.tid = tid then {t with deleted := true} else t

/-- The uniqueness invariant (spec section 3): no two non-deleted Torrents
share a target media unit and file path suffix. -/
def UniqueSuffixInv (ts : List TorrentRec) : Prop :=
  ts.Pairwise fun a b =>
    ¬ (a.deleted = false ∧ b.deleted = false ∧ a.target = b.target ∧ a.suffix = b.suffix)

instance (ts : List TorrentRec) : Decidable (UniqueSuffixInv ts) :=
  inferInstanceAs (Decidable (ts.Pairwise _))

end Orch

namespace Reconciler

/-! ## Import Reconciler

Modelled from the spec: the backend reconciler module is not present under
the source tree; its behaviour is documented in
`Writerside/topics/Importing-existing-media.md` (a folder is imported only
if its name does not start with a dot and it sits in the library root).
`scan` enumerates the immediate subdirectories of a library root, modelled
as the list of their names; `confirmImport` renames the source directory by
prefixing it with a dot, the sole idempotency marker. Metadata matching and
hard-linking do not affect which directories are offered, so they are not
modelled. -/

/-- The "already processed" marker test: the directory name starts with a
dot. -/
def dotPrefixed (name : String) : Bool :=
  match name.data with
  | '.' :: _ => true
  | _ => false

/-- `scan` (spec section 4.5): offer every immediate subdirectory of the
library root whose name does not start with a dot. -/
def scan (dirs : List String) : List String :=
  dirs.filter fun d => !(dotPrefixed d)

/-- The rename performed by a confirmed import: prefix the source directory
name with a dot. -/
def markImported (d : String) : String := ⟨'.' :: d.data⟩

/-- `confirmImport` (spec section 4.5), restricted to its effect on the scan
namespace: the candidate directory is renamed dot-prefixed in place. -/
def confirmImport (dirs : List String) (d : String) : List String :=
  dirs.map fun x => if x = d then markImported d else x

end Reconciler

/-! ## Helper lemmas -/

namespace Orch

/-- A map over the persisted state preserves the uniqueness invariant as long
as every record the map leaves non-deleted keeps its target and suffix and
was non-deleted before. -/
theorem uniqueSuffixInv_map (f : TorrentRec → TorrentRec)
    (hf : ∀ t, (f t).deleted = false →
      (f t).target = t.target ∧ (f t).suffix = t.suffix ∧ t.deleted = false)
    {ts : List TorrentRec} (h : UniqueSuffixInv ts) : UniqueSuffixInv (ts.map f) := by
  unfold UniqueSuffixInv at h ⊢
  refine List.Pairwise.map f ?_ h
  intro a b hab hP
  obtain ⟨hda, hdb, htg, hsf⟩ := hP
  obtain ⟨ta, sa, da⟩ := hf a hda
  obtain ⟨tb, sb, db⟩ := hf b hdb
  exact hab ⟨da, db, by rw [← ta, ← tb]; exact htg, by rw [← sa, ← sb]; exact hsf⟩

theorem updateRecord_fields (t : TorrentRec) (tid : Nat) (st : TStatus) :
    (updateRecord t tid st).deleted = t.deleted ∧
    (updateRecord t tid st).target = t.target ∧
    (updateRecord t tid st).suffix = t.suffix := by
  unfold updateRecord
  split <;> simp

theorem retryRecord_fields (t : TorrentRec) (tid : Nat) (client : ClientResp) :
    (retryRecord t tid client).deleted = t.deleted ∧
    (retryRecord t tid client).target = t.target ∧
    (retryRecord t tid client).suffix = t.suffix := by
  unfold retryRecord
  split
  · cases client <;> simp
  · simp

theorem applyStatusUpdate_inv {ts : List TorrentRec} (tid : Nat) (st : TStatus)
    (h : UniqueSuffixInv ts) : UniqueSuffixInv (applyStatusUpdate ts tid st) := by
  refine uniqueSuffixInv_map _ ?_ h
  intro t htd
  obtain ⟨hd, htg, hsf⟩ := updateRecord_fields t tid st
  exact ⟨htg, hsf, hd ▸ htd⟩

theorem retry_inv {ts : List TorrentRec} (tid : Nat) (client : ClientResp)
    (h : UniqueSuffixInv ts) : UniqueSuffixInv (retry ts tid client) := by
  refine uniqueSuffixInv_map _ ?_ h
  intro t htd
  obtain ⟨hd, htg, hsf⟩ := retryRecord_fields t tid client
  exact ⟨htg, hsf, hd ▸ htd⟩

theorem deleteTorrent_inv {ts : List TorrentRec} (tid : Nat)
    (h : UniqueSuffixInv ts) : UniqueSuffixInv (deleteTorrent ts tid) := by
  refine uniqueSuffixInv_map _ ?_ h
  intro t htd
  by_cases htid : t.tid = tid
  · rw [if_pos htid] at htd
    simp at htd
  · rw [if_neg htid] at htd ⊢
    exact ⟨rfl, rfl, htd⟩

/-- A successful insert from an unconflicted state keeps the invariant. -/
theorem uniqueSuffixInv_insert {ts : List TorrentRec} (req : AcquisitionRequest)
    (q : Quality) (fresh : Nat)
    (hnc : ¬ conflictExists ts req.target req.suffix)
    (h : UniqueSuffixInv ts) : UniqueSuffixInv (newTorrent fresh req q :: ts) := by
  refine List.pairwise_cons.mpr ⟨?_, h⟩
  intro b hb hP
  obtain ⟨_, hdb, htg, hsf⟩ := hP
  exact hnc ⟨b, hb, hdb, htg.symm ▸ rfl, hsf.symm ▸ rfl⟩

/-- After a successful insert, the inserted record witnesses a conflict for
its own target and suffix. -/
theorem conflictExists_insert (ts : List TorrentRec) (req : AcquisitionRequest)
    (q : Quality) (fresh : Nat) :
    conflictExists (newTorrent fresh req q :: ts) req.target req.suffix :=
  ⟨newTorrent fresh req q, List.mem_cons_self _ _, rfl, rfl, rfl⟩

theorem commit_of_conflict {ts : List TorrentRec} {req : AcquisitionRequest}
    (q : Quality) (fresh : Nat) (client : ClientResp)
    (hv : validRequest req) (hc : conflictExists ts req.target req.suffix) :
    commit ts req q fresh client = ⟨.duplicateSuffixConflict, ts, 0⟩ := by
  simp [commit, hv, hc]

theorem commit_accept {ts : List TorrentRec} {req : AcquisitionRequest}
    (q : Quality) (fresh : Nat)
    (hv : validRequest req) (hnc : ¬ conflictExists ts req.target req.suffix) :
    commit ts req q fresh .accept = ⟨.committed, newTorrent fresh req q :: ts, 1⟩ := by
  simp [commit, hv, hnc]

theorem commit_reject {ts : List TorrentRec} {req : AcquisitionRequest}
    (q : Quality) (fresh : Nat) (m : String)
    (hv : validRequest req) (hnc : ¬ conflictExists ts req.target req.suffix) :
    commit ts req q fresh (.reject m) = ⟨.clientRejected m, ts, 1⟩ := by
  simp [commit, hv, hnc]

theorem commit_inv {ts : List TorrentRec} (req : AcquisitionRequest)
    (q : Quality) (fresh : Nat) (client : ClientResp)
    (h : UniqueSuffixInv ts) : UniqueSuffixInv (commit ts req q fresh client).state := by
  unfold commit
  by_cases hv : validRequest req
  · by_cases hc : conflictExists ts req.target req.suffix
    · simp [hv, hc, h]
    · cases client with
      | reject m => simp [hv, hc, h]
      | accept => simpa [hv, hc] using uniqueSuffixInv_insert req q fresh hc h
  · simp [hv, h]

/-- Example request of the concrete commit scenario: show 1, season 2,
quality window HD..UHD, default (empty) suffix. -/
def reqA : AcquisitionRequest := ⟨.showSeason 1 2, .hd, .uhd, ""⟩

/-- Same target as `reqA` but with the distinct suffix `"x265"`. -/
def reqC : AcquisitionRequest := ⟨.showSeason 1 2, .hd, .uhd, "x265"⟩

end Orch

namespace Ranker

theorem quality_code_le_five (q : Quality) : q.code ≤ 5 := by
  cases q <;> decide

theorem quality_eq_unknown_of_code (q : Quality) (h : q.code = 5) : q = .unknown := by
  revert h
  cases q <;> decide

theorem mem_rank {rs : List Release} {req : RankRequest} {r : Release}
    (h : r ∈ rank rs req) : r ∈ rs.filter (inWindow req) :=
  (List.perm_insertionSort qualityLe _).mem_iff.mp h

/-- Every release in the output sits inside the quality window or is
Unknown. -/
theorem rank_in_window {rs : List Release} {req : RankRequest} {r : Release}
    (h : r ∈ rank rs req) (hk : r.quality ≠ .unknown) :
    req.wantedQuality.code ≤ r.quality.code ∧ r.quality.code ≤ req.minQuality.code := by
  have hw := (List.mem_filter.mp (mem_rank h)).2
  have := of_decide_eq_true hw
  rcases this with h1 | h2
  · exact absurd h1 hk
  · exact h2

/-- In the output, once an Unknown-quality release appears every later
release is also Unknown: Unknown ranks after all known-quality matches. -/
theorem rank_unknown_last (rs : List Release) (req : RankRequest) :
    (rank rs req).Pairwise fun a b => a.quality = .unknown → b.quality = .unknown := by
  have hs : (rank rs req).Pairwise qualityLe :=
    List.sorted_insertionSort qualityLe _
  refine hs.imp ?_
  intro a b hab ha
  have h5 : a.quality.code = 5 := by rw [ha]; rfl
  have hge : (5 : Int) ≤ b.quality.code := by
    have := hab
    unfold qualityLe at this
    omega
  exact quality_eq_unknown_of_code _ (le_antisymm (quality_code_le_five _) hge)

/-- Concrete request of the ranking scenario: `minQuality = HD`,
`wantedQuality = UHD`. -/
def sampleReq : RankRequest := ⟨.hd, .uhd⟩

def sampleSD : Release :=
  ⟨"Show S01 480p", "idxA", 700, some 12, none, [], false, [1], [], .sd⟩

def sampleHD : Release :=
  ⟨"Show S01 720p", "idxB", 1400, some 30, none, [], false, [1], [], .hd⟩

def sampleUHD : Release :=
  ⟨"Show S01 2160p", "idxC", 9000, some 21, none, [], false, [1], [], .uhd⟩

def sampleUnknown : Release :=
  ⟨"Show S01", "idxD", 2100, some 5, none, [], false, [1], [], .unknown⟩

end Ranker

namespace Web

/-- The message a `409`-aware download handler produces is the
duplicate-suffix message exactly on status 409. -/
theorem handlerDupIff (st : Int) :
    (if st = 409 then DownloadMsg.duplicateSuffix
     else if !(respOk st) then DownloadMsg.genericFailure
     else DownloadMsg.success) = DownloadMsg.duplicateSuffix ↔ st = 409 := by
  by_cases h : st = 409
  · simp [h]
  · rw [if_neg h]
    constructor
    · intro hcontra
      exfalso
      revert hcontra
      split <;> decide
    · intro hc
      exact absurd hc h

/-- A `409`-aware download handler produces the generic failure message on
every non-ok status other than 409. -/
theorem handlerGenericOf (st : Int) (h1 : st ≠ 409) (h2 : respOk st = false) :
    (if st = 409 then DownloadMsg.duplicateSuffix
     else if !(respOk st) then DownloadMsg.genericFailure
     else DownloadMsg.success) = DownloadMsg.genericFailure := by
  simp [h1, h2]

end Web

/-! ## Claims -/

/-- C1. For every target media unit, at most one non-deleted Torrent holds
a given `filePathSuffix`; the invariant is preserved by commit, status
updates, retry and deletion; a commit that would violate it fails atomically
with `DuplicateSuffixConflict`, leaving the state unchanged and making no
download-client call; of two serialized commits with the same target and
suffix exactly one ends `Committed` and the other `DuplicateSuffixConflict`,
while a second commit with a different suffix for the same target
succeeds. -/
theorem commit_unique_suffix (ts : List Orch.TorrentRec)
    (req req2 : Orch.AcquisitionRequest) (q q2 : Quality) (fresh fresh2 : Nat)
    (client : Orch.ClientResp) (tid : Nat) (st : Orch.TStatus)
    (hInv : Orch.UniqueSuffixInv ts) :
    Orch.UniqueSuffixInv (Orch.commit ts req q fresh client).state ∧
    Orch.UniqueSuffixInv (Orch.applyStatusUpdate ts tid st) ∧
    Orch.UniqueSuffixInv (Orch.retry ts tid client) ∧
    Orch.UniqueSuffixInv (Orch.deleteTorrent ts tid) ∧
    (Orch.validRequest req → Orch.conflictExists ts req.target req.suffix →
      Orch.commit ts req q fresh client = ⟨.duplicateSuffixConflict, ts, 0⟩) ∧
    (Orch.validRequest req → ¬ Orch.conflictExists ts req.target req.suffix →
      (Orch.commit ts req q fresh .accept).result = .committed ∧
      (Orch.commit (Orch.commit ts req q fresh .accept).state req q2 fresh2
        .accept).result = .duplicateSuffixConflict) ∧
    (Orch.validRequest req → ¬ Orch.conflictExists ts req.target req.suffix →
      Orch.validRequest req2 → ¬ Orch.conflictExists ts req2.target req2.suffix →
      req2.suffix ≠ req.suffix →
      (Orch.commit (Orch.commit ts req q fresh .accept).state req2 q2 fresh2
        .accept).result = .committed) := by
  refine ⟨Orch.commit_inv req q fresh client hInv,
    Orch.applyStatusUpdate_inv tid st hInv,
    Orch.retry_inv tid client hInv,
    Orch.deleteTorrent_inv tid hInv, ?_, ?_, ?_⟩
  · intro hv hc
    exact Orch.commit_of_conflict q fresh client hv hc
  · intro hv hnc
    rw [Orch.commit_accept q fresh hv hnc]
    exact ⟨rfl, by
      rw [Orch.commit_of_conflict q2 fresh2 .accept hv
        (Orch.conflictExists_insert ts req q fresh)]⟩
  · intro hv hnc hv2 hnc2 hsuf
    rw [Orch.commit_accept q fresh hv hnc]
    have hnc2' : ¬ Orch.conflictExists (Orch.newTorrent fresh req q :: ts)
        req2.target req2.suffix := by
      rintro ⟨t, ht, hk⟩
      rcases List.mem_cons.mp ht with rfl | hmem
      · exact hsuf hk.2.2.symm
      · exact hnc2 ⟨t, hmem, hk⟩
    rw [Orch.commit_accept q2 fresh2 hv2 hnc2']

/-- C1 witness: the concrete scenario — from the empty state, commit A with
the empty suffix succeeds, commit B with the empty suffix for the same
show+season fails with `DuplicateSuffixConflict`, and commit C with suffix
`"x265"` for the same show+season succeeds. -/
theorem commit_unique_suffix_witness :
    (Orch.commit [] Orch.reqA .uhd 1 .accept).result = .committed ∧
    (Orch.commit (Orch.commit [] Orch.reqA .uhd 1 .accept).state Orch.reqA .uhd 2
      .accept).result = .duplicateSuffixConflict ∧
    (Orch.commit (Orch.commit [] Orch.reqA .uhd 1 .accept).state Orch.reqC .uhd 2
      .accept).result = .committed := by
  have h := commit_unique_suffix [] Orch.reqA Orch.reqC .uhd .uhd 1 2 .accept 0
    .downloading List.Pairwise.nil
  exact ⟨(h.2.2.2.2.2.1 (by decide) (by decide)).1,
    (h.2.2.2.2.2.1 (by decide) (by decide)).2,
    h.2.2.2.2.2.2 (by decide) (by decide) (by decide) (by decide) (by decide)⟩

/-- C2. The commit calls the download client only after validation and the
uniqueness check pass (zero client calls otherwise); on client rejection the
result is `ClientRejected` with the client's message and the state is
unchanged (no Torrent record); only after client acceptance is the record
persisted, and it is persisted with status `Downloading`. -/
theorem commit_client_gate (ts : List Orch.TorrentRec)
    (req : Orch.AcquisitionRequest) (q : Quality) (fresh : Nat) (msg : String)
    (hv : Orch.validRequest req)
    (hnc : ¬ Orch.conflictExists ts req.target req.suffix) :
    Orch.commit ts req q fresh (.reject msg) = ⟨.clientRejected msg, ts, 1⟩ ∧
    Orch.commit ts req q fresh .accept
      = ⟨.committed, Orch.newTorrent fresh req q :: ts, 1⟩ ∧
    (Orch.newTorrent fresh req q).status = .downloading ∧
    (∀ (ts2 : List Orch.TorrentRec) (req2 : Orch.AcquisitionRequest)
      (q3 : Quality) (f3 : Nat) (c3 : Orch.ClientResp),
      ¬ Orch.validRequest req2 ∨ Orch.conflictExists ts2 req2.target req2.suffix →
      (Orch.commit ts2 req2 q3 f3 c3).clientCalls = 0) := by
  refine ⟨Orch.commit_reject q fresh msg hv hnc,
    Orch.commit_accept q fresh hv hnc, rfl, ?_⟩
  intro ts2 req2 q3 f3 c3 hbad
  rcases hbad with hbad | hbad
  · simp [Orch.commit, hbad]
  · by_cases hv2 : Orch.validRequest req2
    · simp [Orch.commit, hv2, hbad]
    · simp [Orch.commit, hv2]

/-- C2 witness: from the empty state with request A, a rejecting client
yields `ClientRejected` and no record, an accepting client persists exactly
one record with status Downloading, and a conflicted state yields zero
client calls. -/
theorem commit_client_gate_witness :
    Orch.commit [] Orch.reqA .uhd 1 (.reject "duplicate hash")
      = ⟨.clientRejected "duplicate hash", [], 1⟩ ∧
    Orch.commit [] Orch.reqA .uhd 1 .accept
      = ⟨.committed, [Orch.newTorrent 1 Orch.reqA .uhd], 1⟩ ∧
    (Orch.newTorrent 1 Orch.reqA .uhd).status = .downloading := by
  have h := commit_client_gate [] Orch.reqA .uhd 1 "duplicate hash"
    (by decide) (by decide)
  exact ⟨h.1, h.2.1, h.2.2.1⟩

/-- C3 counterexample: the claim "in every download-selection handler the
duplicate-suffix message is produced iff the status equals 409" fails on the
selected-episodes handler, which at status 409 produces the generic failure
message, not the duplicate-suffix message. -/
theorem conflict_409_counterexample :
    Web.downloadTorrentSelectedEpisodes 409 = .genericFailure ∧
    ¬ (Web.downloadTorrentSelectedEpisodes 409 = .duplicateSuffix ↔
        (409 : Int) = 409) := by
  decide

/-- C3 (amended). In every download-selection handler except the
selected-episodes one, the duplicate-suffix message is produced iff the
response status equals 409, and every other non-ok status produces the
generic failure message; the selected-episodes handler never produces the
duplicate-suffix message and produces the generic failure message for every
non-ok status, 409 included. -/
theorem conflict_409_signaling (status : Int) :
    (Web.downloadTorrentMovie status = .duplicateSuffix ↔ status = 409) ∧
    (Web.downloadTorrentShowCustom status = .duplicateSuffix ↔ status = 409) ∧
    (Web.downloadTorrentMovieDebrid status = .duplicateSuffix ↔ status = 409) ∧
    (Web.downloadTorrentSeason status = .duplicateSuffix ↔ status = 409) ∧
    (Web.downloadTorrentSelectedSeasons status = .duplicateSuffix ↔ status = 409) ∧
    (Web.downloadTorrentSeasonLegacy status = .duplicateSuffix ↔ status = 409) ∧
    (Web.downloadTorrentAlbum status = .duplicateSuffix ↔ status = 409) ∧
    (status ≠ 409 → Web.respOk status = false →
      Web.downloadTorrentMovie status = .genericFailure ∧
      Web.downloadTorrentShowCustom status = .genericFailure ∧
      Web.downloadTorrentMovieDebrid status = .genericFailure ∧
      Web.downloadTorrentSeason status = .genericFailure ∧
      Web.downloadTorrentSelectedSeasons status = .genericFailure ∧
      Web.downloadTorrentSeasonLegacy status = .genericFailure ∧
      Web.downloadTorrentAlbum status = .genericFailure) ∧
    (∀ s2 : Int, Web.downloadTorrentSelectedEpisodes s2 ≠ .duplicateSuffix) ∧
    (Web.respOk status = false →
      Web.downloadTorrentSelectedEpisodes status = .genericFailure) := by
  refine ⟨Web.handlerDupIff status, Web.handlerDupIff status,
    Web.handlerDupIff status, Web.handlerDupIff status,
    Web.handlerDupIff status, Web.handlerDupIff status,
    Web.handlerDupIff status, ?_, ?_, ?_⟩
  · intro h1 h2
    exact ⟨Web.handlerGenericOf status h1 h2, Web.handlerGenericOf status h1 h2,
      Web.handlerGenericOf status h1 h2, Web.handlerGenericOf status h1 h2,
      Web.handlerGenericOf status h1 h2, Web.handlerGenericOf status h1 h2,
      Web.handlerGenericOf status h1 h2⟩
  · intro s2
    unfold Web.downloadTorrentSelectedEpisodes
    split <;> decide
  · intro h2
    simp [Web.downloadTorrentSelectedEpisodes, h2]

/-- C3 witness: at status 409 the movie handler produces the duplicate-suffix
message, and at status 500 the movie handler and the selected-episodes
handler both produce the generic failure message. -/
theorem conflict_409_signaling_witness :
    Web.downloadTorrentMovie 409 = .duplicateSuffix ∧
    Web.downloadTorrentMovie 500 = .genericFailure ∧
    Web.downloadTorrentSelectedEpisodes 500 = .genericFailure := by
  exact ⟨(conflict_409_signaling 409).1.mpr rfl,
    ((conflict_409_signaling 500).2.2.2.2.2.2.2.1 (by decide) (by decide)).1,
    (conflict_409_signaling 500).2.2.2.2.2.2.2.2.2 (by decide)⟩

/-- C4. For every title in which the `S\d{1,2}E\d{1,2}` pattern matches
(the first pattern tried, taking precedence over all later patterns and
yielding the leftmost match `(s, e)`), `parse` returns `seasons = [s]` and
`episodes = [e]`; concretely,
`parse "Rick and Morty S03E07 Rickmurai Jack 1080p WEB"` yields
seasons `{3}`, episodes `{7}` and quality `FullHD`. -/
theorem parse_sxxexx_extraction (title : String) (s e : Nat)
    (h : Parser.scanFirst Parser.matchSxxExxAt (Parser.lower title) = some (s, e)) :
    (Parser.parse title).seasons = [s] ∧ (Parser.parse title).episodes = [e] ∧
    Parser.parse "Rick and Morty S03E07 Rickmurai Jack 1080p WEB"
      = ⟨[3], [7], .fullHD⟩ := by
  have hep : Parser.episodeMatch (Parser.lower title) = some ([s], [e]) := by
    unfold Parser.episodeMatch
    rw [h]
  refine ⟨?_, ?_, by decide⟩
  · simp [Parser.parse, hep]
  · simp [Parser.parse, hep]

/-- C4 witness: the Rick and Morty title matches `S03E07` and parses to
seasons `[3]`, episodes `[7]`. -/
theorem parse_sxxexx_extraction_witness :
    (Parser.parse "Rick and Morty S03E07 Rickmurai Jack 1080p WEB").seasons = [3] ∧
    (Parser.parse "Rick and Morty S03E07 Rickmurai Jack 1080p WEB").episodes = [7] := by
  have h := parse_sxxexx_extraction "Rick and Morty S03E07 Rickmurai Jack 1080p WEB"
    3 7 (by decide)
  exact ⟨h.1, h.2.1⟩

/-- C5. `parse` is total by construction and never fails: when no episode
pattern matches but a season token does, the result has non-empty seasons
and empty episodes (a season pack); when no episode pattern, no season token
and no resolution token match, the result is empty seasons, empty episodes
and quality Unknown — never an error; concretely,
`parse "The Office (2013) Season 2"` yields seasons `{2}`, episodes `{}`,
quality `Unknown`. -/
theorem parse_total_degradation (title : String)
    (hep : Parser.episodeMatch (Parser.lower title) = none) :
    ((∃ n, Parser.seasonPackMatch (Parser.lower title) = some n) →
      (Parser.parse title).seasons ≠ [] ∧ (Parser.parse title).episodes = []) ∧
    (Parser.seasonPackMatch (Parser.lower title) = none →
      Parser.qualityOf (Parser.lower title) = .unknown →
      Parser.parse title = ⟨[], [], .unknown⟩) ∧
    Parser.parse "The Office (2013) Season 2" = ⟨[2], [], .unknown⟩ := by
  refine ⟨?_, ?_, by decide⟩
  · rintro ⟨n, hsp⟩
    constructor
    · simp [Parser.parse, hep, hsp]
    · simp [Parser.parse, hep, hsp]
  · intro hsp hq
    simp [Parser.parse, hep, hsp, hq]

/-- C5 witness: "The Office (2013) Season 2" matches no episode pattern,
matches the season token `Season 2`, and parses to seasons `[2]`, episodes
`[]`. -/
theorem parse_total_degradation_witness :
    (Parser.parse "The Office (2013) Season 2").seasons ≠ [] ∧
    (Parser.parse "The Office (2013) Season 2").episodes = [] := by
  have h := parse_total_degradation "The Office (2013) Season 2" (by decide)
  exact h.1 ⟨2, by decide⟩

/-- C6. `rank` never returns a release whose known quality lies outside
`[minQuality, wantedQuality]`; every Unknown-quality release of the input is
retained; in the output every release after an Unknown-quality one is also
Unknown (Unknown is ordered after all known qualities); concretely, for
`minQuality = HD, wantedQuality = UHD` and candidates at SD, HD, UHD and
Unknown, the output excludes the SD release, places UHD first and Unknown
last. -/
theorem rank_quality_window (rs : List Ranker.Release) (req : Ranker.RankRequest)
    (r : Ranker.Release) (hmem : r ∈ Ranker.rank rs req) :
    (r.quality ≠ .unknown →
      req.wantedQuality.code ≤ r.quality.code ∧
      r.quality.code ≤ req.minQuality.code) ∧
    (∀ u ∈ rs, u.quality = .unknown → u ∈ Ranker.rank rs req) ∧
    (Ranker.rank rs req).Pairwise
      (fun a b => a.quality = .unknown → b.quality = .unknown) ∧
    Ranker.rank [Ranker.sampleSD, Ranker.sampleHD, Ranker.sampleUHD,
        Ranker.sampleUnknown] Ranker.sampleReq
      = [Ranker.sampleUHD, Ranker.sampleHD, Ranker.sampleUnknown] := by
  refine ⟨fun hk => Ranker.rank_in_window hmem hk, ?_,
    Ranker.rank_unknown_last rs req, by decide⟩
  intro u hu hq
  exact (List.perm_insertionSort Ranker.qualityLe _).mem_iff.mpr
    (List.mem_filter.mpr ⟨hu, by simp [Ranker.inWindow, hq]⟩)

/-- C6 witness: in the concrete scenario the UHD release is in the output
and inside the quality window, and the output is exactly
`[UHD, HD, Unknown]`. -/
theorem rank_quality_window_witness :
    Ranker.sampleReq.wantedQuality.code ≤ Ranker.sampleUHD.quality.code ∧
    Ranker.sampleUHD.quality.code ≤ Ranker.sampleReq.minQuality.code ∧
    Ranker.rank [Ranker.sampleSD, Ranker.sampleHD, Ranker.sampleUHD,
        Ranker.sampleUnknown] Ranker.sampleReq
      = [Ranker.sampleUHD, Ranker.sampleHD, Ranker.sampleUnknown] := by
  have h := rank_quality_window
    [Ranker.sampleSD, Ranker.sampleHD, Ranker.sampleUHD, Ranker.sampleUnknown]
    Ranker.sampleReq Ranker.sampleUHD (by decide)
  exact ⟨(h.1 (by decide)).1, (h.1 (by decide)).2, h.2.2.2⟩

/-- C7. `scan` offers as candidates only members of the library root whose
names do not start with a dot, and `confirmImport` renames its directory to
a dot-prefixed name, so a directory once imported is never re-offered by a
subsequent `scan`: reconciliation is idempotent. -/
theorem scan_import_idempotent (dirs : List String) (d : String)
    (h : d ∈ Reconciler.scan dirs) :
    (∀ x ∈ Reconciler.scan dirs, x ∈ dirs ∧ Reconciler.dotPrefixed x = false) ∧
    d ∉ Reconciler.scan (Reconciler.confirmImport dirs d) := by
  constructor
  · intro x hx
    have hx' := List.mem_filter.mp hx
    exact ⟨hx'.1, by simpa using hx'.2⟩
  · intro hmem
    have h1 : d ∈ Reconciler.confirmImport dirs d :=
      (List.mem_filter.mp hmem).1
    obtain ⟨x, hx, hfx⟩ := List.mem_map.mp h1
    by_cases hxd : x = d
    · subst hxd
      rw [if_pos rfl] at hfx
      have hdata := congrArg String.data hfx
      simp only [Reconciler.markImported] at hdata
      exact List.cons_ne_self _ _ hdata
    · rw [if_neg hxd] at hfx
      exact hxd hfx

/-- C7 witness: scanning a root with one imported (dot-prefixed) and two
fresh directories offers the fresh ones; after confirming the import of
"Rick and Morty" a re-scan no longer offers it. -/
theorem scan_import_idempotent_witness :
    "Rick and Morty" ∉ Reconciler.scan
      (Reconciler.confirmImport ["Rick and Morty", ".done", "Stranger Things"]
        "Rick and Morty") ∧
    "Rick and Morty" ∈ Reconciler.scan ["Rick and Morty", ".done", "Stranger Things"] := by
  have h := scan_import_idempotent ["Rick and Morty", ".done", "Stranger Things"]
    "Rick and Morty" (by decide)
  exact ⟨h.2, by decide⟩

/-- C8. The transition `Finished → Downloading` never occurs: a status
update leaves a Finished record unchanged, a retry leaves a Finished record
unchanged (retry acts only on Error records, resetting them to Downloading
on client acceptance and leaving Error on rejection), and the UI renders the
retry action exactly when the decoded status is not `finished`. -/
theorem no_finished_redownload (t : Orch.TorrentRec) (tid : Nat)
    (st : Orch.TStatus) (m : String) (code : Int)
    (hfin : t.status = .finished) :
    Orch.updateRecord t tid st = t ∧
    Orch.retryRecord t tid .accept = t ∧
    (∀ t2 : Orch.TorrentRec, t2.tid = tid → t2.status = .error →
      (Orch.retryRecord t2 tid .accept).status = .downloading ∧
      (Orch.retryRecord t2 tid (.reject m)).status = .error) ∧
    (Web.showRetryButton code = false ↔
      Web.getTorrentStatusString code = "finished") := by
  refine ⟨?_, ?_, ?_, ?_⟩
  · unfold Orch.updateRecord
    rw [if_neg]
    simp [hfin]
  · unfold Orch.retryRecord
    rw [if_neg]
    simp [hfin]
  · intro t2 htid herr
    constructor
    · unfold Orch.retryRecord
      rw [if_pos ⟨htid, herr⟩]
    · unfold Orch.retryRecord
      rw [if_pos ⟨htid, herr⟩]
      exact herr
  · unfold Web.showRetryButton
    constructor
    · intro hb
      have hx : ("finished" == Web.getTorrentStatusString code) = true := by
        revert hb
        cases ("finished" == Web.getTorrentStatusString code) <;> simp
      exact (eq_of_beq hx).symm
    · intro hs
      rw [hs]
      rfl

/-- C8 witness: a concrete Finished torrent is unchanged by a status update
to Downloading and by a retry, an Error torrent retries to Downloading, and
at decoded status `finished` (code 1) the retry button is not rendered. -/
theorem no_finished_redownload_witness :
    Orch.updateRecord ⟨7, .movie 3, "", .uhd, .finished, true, false⟩ 7 .downloading
      = ⟨7, .movie 3, "", .uhd, .finished, true, false⟩ ∧
    Orch.retryRecord ⟨7, .movie 3, "", .uhd, .finished, true, false⟩ 7 .accept
      = ⟨7, .movie 3, "", .uhd, .finished, true, false⟩ ∧
    (Orch.retryRecord ⟨8, .movie 3, "", .uhd, .error, false, false⟩ 8 .accept).status
      = .downloading ∧
    Web.showRetryButton 1 = false := by
  have h := no_finished_redownload ⟨7, .movie 3, "", .uhd, .finished, true, false⟩
    7 .downloading "client down" 1 rfl
  refine ⟨h.1, h.2.1, ?_, h.2.2.2.mpr (by decide)⟩
  have h2 := no_finished_redownload ⟨7, .movie 3, "", .uhd, .finished, true, false⟩
    8 .downloading "client down" 1 rfl
  exact (h2.2.2.1 ⟨8, .movie 3, "", .uhd, .error, false, false⟩ rfl rfl).1

/-- C9. The quality vocabulary is ordered best to worst as UHD, FullHD, HD,
SD, Unknown; the numeric codes of the web interface are strictly monotone
with respect to that ordering (1 = UHD best, 5 = unknown greatest/worst), so
comparing codes numerically implements the spec ordering; every known
quality's code is below Unknown's; and each code is mapped by `qualityMap`
to its label. -/
theorem quality_codes_monotone (q1 q2 : Quality)
    (h : q1.specRank < q2.specRank) :
    q1.code < q2.code ∧
    (∀ a b : Quality, a.code < b.code ↔ a.specRank < b.specRank) ∧
    (∀ a : Quality, a ≠ .unknown → a.code < Quality.unknown.code) ∧
    (∀ a : Quality, Web.qualityMap a.code = some a.label) := by
  have key : ∀ a b : Quality, a.code < b.code ↔ a.specRank < b.specRank := by
    decide
  exact ⟨(key q1 q2).mpr h, key, by decide, by decide⟩

/-- C9 witness: UHD precedes FullHD in the spec ordering and its code is
smaller. -/
theorem quality_codes_monotone_witness :
    Quality.uhd.code < Quality.fullHD.code :=
  (quality_codes_monotone .uhd .fullHD (by decide)).1

/-- C10. The public-interface decoders are total and never throw: every
integer code outside the four-entry `torrentStatusMap` decodes to
`"unknown"`, and every integer code outside the five-entry `qualityMap`
decodes to `"unknown"`. -/
theorem decoders_default_unknown (v w : Int)
    (hv : ¬ (v = 1 ∨ v = 2 ∨ v = 3 ∨ v = 4))
    (hw : ¬ (w = 1 ∨ w = 2 ∨ w = 3 ∨ w = 4 ∨ w = 5)) :
    Web.getTorrentStatusString v = "unknown" ∧
    Web.getTorrentQualityString w = "unknown" := by
  push_neg at hv hw
  obtain ⟨h1, h2, h3, h4⟩ := hv
  obtain ⟨g1, g2, g3, g4, g5⟩ := hw
  constructor
  · simp [Web.getTorrentStatusString, Web.torrentStatusMap, h1, h2, h3, h4]
  · simp [Web.getTorrentQualityString, Web.qualityMap, g1, g2, g3, g4, g5]

/-- C10 witness: the out-of-range codes 7 and 9 both decode to
`"unknown"`. -/
theorem decoders_default_unknown_witness :
    Web.getTorrentStatusString 7 = "unknown" ∧
    Web.getTorrentQualityString 9 = "unknown" :=
  decoders_default_unknown 7 9 (by decide) (by decide)

end MediaManager
